import Mathlib

/-!
Verification of the ghost-replay engine (guelo/ghostreplay) against its
natural-language specification.

The Lean definitions below are a shallow embedding of the Python backend:
  - app/fen.py            : FEN normalization and SHA-256 position hashing
  - app/srs_math.py       : spaced-repetition interval and priority math
  - app/api/srs.py        : the review endpoint update logic
  - app/api/game.py       : the ghost-steering recursive-CTE traversal
  - app/api/blunder.py    : the blunder recorder (replay, upserts, errors)
  - app/opponent_move_controller.py : the calibrated move selection

Modelling decisions (documented once, used throughout):
  - Machine integers and floats are modelled as Nat / Int / Rat; Python
    float arithmetic in the SRS and controller formulas is idealized as
    exact rational arithmetic.  The external `math.log` is an abstract
    function parameter (the theorems that need it assume monotonicity,
    which the real logarithm satisfies).
  - The python-chess library is an external collaborator (the spec puts
    it out of scope).  The only library facts the code consumes for FEN
    normalization are: the parsed board is determined by the first four
    FEN fields, `has_legal_en_passant` is false when the FEN's en-passant
    field is `-`, and `square_name(board.ep_square)` round-trips the
    field of a well-formed FEN.  These are represented by an abstract
    en-passant-legality oracle on the first four FEN fields.
  - SQL rows are Lean structures; tables are lists in insertion order;
    autoincrement ids are explicit counters threaded through the state.
  - The recursive CTE of find_ghost_move is evaluated level-by-level
    (breadth first), which is the row order produced both by PostgreSQL
    (level-wise working table) and by SQLite (FIFO queue); `LIMIT 1`
    with no ORDER BY is the head of that row sequence.  The SQL string
    path with comma delimiters is modelled as the list of visited ids:
    since decimal ids contain no comma, the `NOT LIKE '%,id,%'` test is
    exactly list membership.
  - Exceptions (HTTPException) are an Except monad; a thrown error means
    the surrounding transaction commits nothing, so an `.error` result
    carries no database state.
-/

namespace GhostReplay

/-! ## SHA-256 over Nat (bytes are Nat < 256, words are Nat < 2^32) -/

def M32 : Nat := 4294967296

def rotr (x n : Nat) : Nat := ((x >>> n) ||| (x <<< (32 - n))) % M32

def sumA (x : Nat) : Nat := (rotr x 2) ^^^ (rotr x 13) ^^^ (rotr x 22)

def sumE (x : Nat) : Nat := (rotr x 6) ^^^ (rotr x 11) ^^^ (rotr x 25)

def sigLo (x : Nat) : Nat := (rotr x 7) ^^^ (rotr x 18) ^^^ (x >>> 3)

def sigHi (x : Nat) : Nat := (rotr x 17) ^^^ (rotr x 19) ^^^ (x >>> 10)

def sha256K : List Nat :=
  [1116352408, 1899447441, 3049323471, 3921009573, 961987163,
   1508970993, 2453635748, 2870763221, 3624381080, 310598401,
   607225278, 1426881987, 1925078388, 2162078206, 2614888103,
   3248222580, 3835390401, 4022224774, 264347078, 604807628,
   770255983, 1249150122, 1555081692, 1996064986, 2554220882,
   2821834349, 2952996808, 3210313671, 3336571891, 3584528711,
   113926993, 338241895, 666307205, 773529912, 1294757372,
   1396182291, 1695183700, 1986661051, 2177026350, 2456956037,
   2730485921, 2820302411, 3259730800, 3345764771, 3516065817,
   3600352804, 4094571909, 275423344, 430227734, 506948616,
   659060556, 883997877, 958139571, 1322822218, 1537002063,
   1747873779, 1955562222, 2024104815, 2227730452, 2361852424,
   2428436474, 2756734187, 3204031479, 3329325298]

structure Hash8 where
  a : Nat
  b : Nat
  c : Nat
  d : Nat
  e : Nat
  f : Nat
  g : Nat
  h : Nat

def sha256InitH : Hash8 :=
  ⟨1779033703, 3144134277, 1013904242, 2773480762,
   1359893119, 2600822924, 528734635, 1541459225⟩

def chNat (e f g : Nat) : Nat := (e &&& f) ^^^ (((M32 - 1) ^^^ e) &&& g)

def majNat (a b c : Nat) : Nat := (a &&& b) ^^^ (a &&& c) ^^^ (b &&& c)

def compressStep (st : Hash8) (kw : Nat × Nat) : Hash8 :=
  let t1 := (st.h + sumE st.e + chNat st.e st.f st.g + kw.1 + kw.2) % M32
  let t2 := (sumA st.a + majNat st.a st.b st.c) % M32
  ⟨(t1 + t2) % M32, st.a, st.b, st.c, (st.d + t1) % M32, st.e, st.f, st.g⟩

def bytesToWords : List Nat → List Nat
  | b0 :: b1 :: b2 :: b3 :: rest => (((b0 * 256 + b1) * 256 + b2) * 256 + b3) :: bytesToWords rest
  | _ => []

def extendSchedule (ws : List Nat) : Nat → List Nat
  | 0 => ws
  | n + 1 =>
    let prev := extendSchedule ws n
    let len := prev.length
    prev ++ [(sigHi (prev.getD (len - 2) 0) + prev.getD (len - 7) 0 +
              sigLo (prev.getD (len - 15) 0) + prev.getD (len - 16) 0) % M32]

def addHash (x y : Hash8) : Hash8 :=
  ⟨(x.a + y.a) % M32, (x.b + y.b) % M32, (x.c + y.c) % M32, (x.d + y.d) % M32,
   (x.e + y.e) % M32, (x.f + y.f) % M32, (x.g + y.g) % M32, (x.h + y.h) % M32⟩

def sha256Blocks : Nat → List Nat → Hash8 → Hash8
  | 0, _, st => st
  | n + 1, bytes, st =>
    let ws := extendSchedule (bytesToWords (bytes.take 64)) 48
    let st' := (sha256K.zip ws).foldl compressStep st
    sha256Blocks n (bytes.drop 64) (addHash st st')

def natToBytesBE (k n : Nat) : List Nat :=
  match k with
  | 0 => []
  | k + 1 => natToBytesBE k (n / 256) ++ [n % 256]

def sha256Pad (msg : List Nat) : List Nat :=
  let padZeros := (119 - msg.length % 64) % 64
  msg ++ [0x80] ++ List.replicate padZeros 0 ++ natToBytesBE 8 (msg.length * 8)

def hexDigit (n : Nat) : Char :=
  if n < 10 then Char.ofNat (48 + n) else Char.ofNat (87 + n)

def natToHex8 (n : Nat) : List Char :=
  (List.range 8).map (fun i => hexDigit ((n >>> ((7 - i) * 4)) &&& 15))

def sha256hexOfBytes (msg : List Nat) : String :=
  let padded := sha256Pad msg
  let st := sha256Blocks (padded.length / 64) padded sha256InitH
  String.mk (([st.a, st.b, st.c, st.d, st.e, st.f, st.g, st.h].map natToHex8).flatten)

def utf8Encode (s : String) : List Nat :=
  s.data.flatMap (fun c =>
    let n := c.toNat
    if n < 0x80 then [n]
    else if n < 0x800 then [0xC0 ||| (n >>> 6), 0x80 ||| (n &&& 0x3F)]
    else if n < 0x10000 then
      [0xE0 ||| (n >>> 12), 0x80 ||| ((n >>> 6) &&& 0x3F), 0x80 ||| (n &&& 0x3F)]
    else
      [0xF0 ||| (n >>> 18), 0x80 ||| ((n >>> 12) &&& 0x3F), 0x80 ||| ((n >>> 6) &&& 0x3F),
       0x80 ||| (n &&& 0x3F)])

def sha256hex (s : String) : String := sha256hexOfBytes (utf8Encode s)

/-! ## app/fen.py -/

def spaceStr : String := " "

def dashStr : String := "-"

def emptyStr : String := ""

/-- The external python-chess en-passant-legality check, as an oracle on the
first four FEN fields (piece placement, active color, castling, ep square).
`has_legal_en_passant` of python-chess depends only on these fields. -/
structure EpOracle where
  hasLegalEp : String → String → String → String → Bool

/-- Python `str.split(sep)` with an explicit one-character separator: split at
every occurrence, keeping empty pieces. -/
def splitOnChar (sep : Char) : List Char → List (List Char)
  | [] => [[]]
  | c :: rest =>
    let r := splitOnChar sep rest
    if c = sep then [] :: r
    else
      match r with
      | [] => [[c]]
      | h :: t => (c :: h) :: t

/-- The fields of `fen.split(" ")` (empty pieces kept, Python semantics). -/
def fenFields (fen : String) : List String := (splitOnChar ' ' fen.data).map String.mk

def fenField (fen : String) (i : Nat) : String := (fenFields fen).getD i emptyStr

/-- Whether the replaced en-passant field is kept: the parsed board has an ep
square at all (the field is not `-`) and `has_legal_en_passant` holds. -/
def epLegalIn (e : EpOracle) (fen : String) : Bool :=
  (fenField fen 3 != dashStr) &&
    e.hasLegalEp (fenField fen 0) (fenField fen 1) (fenField fen 2) (fenField fen 3)

/-- app/fen.py `normalize_fen`: keep the first four FEN fields; the en-passant
field is kept only when the oracle reports a legal en-passant capture (and the
parsed board has an ep square at all, i.e. the field is not `-`), else it is
forced to `-`.  For a well-formed FEN, python-chess's
`square_name(board.ep_square)` is exactly the original fourth field. -/
def normalize_fen (e : EpOracle) (fen : String) : String :=
  String.intercalate spaceStr
    [fenField fen 0, fenField fen 1, fenField fen 2,
     if epLegalIn e fen then fenField fen 3 else dashStr]

/-- app/fen.py `fen_hash`: SHA-256 hex digest of the normalized FEN. -/
def fen_hash (e : EpOracle) (fen : String) : String := sha256hex (normalize_fen e fen)

def whiteStr : String := "white"

def blackStr : String := "black"

def wStr : String := "w"

/-- app/fen.py `active_color`: second FEN field mapped to white/black. -/
def active_color (fen : String) : String :=
  if fenField fen 1 = wStr then whiteStr else blackStr

/-! ## app/srs_math.py
Timestamps are rational numbers of seconds (UTC); hours are seconds / 3600.
Float arithmetic is idealized as exact rational arithmetic. -/

def BASE_INTERVAL_HOURS : Rat := 1

def BACKOFF_FACTOR : Rat := 2

def MAX_INTERVAL_HOURS : Rat := 4320

/-- app/srs_math.py `expected_interval_hours`. -/
def expected_interval_hours (pass_streak : Int) : Rat :=
  min (BASE_INTERVAL_HOURS * BACKOFF_FACTOR ^ (max pass_streak 0).toNat) MAX_INTERVAL_HOURS

/-- app/srs_math.py `calculate_priority`.  Python's
`reference_time = last_reviewed_at or created_at` is none-coalescing, since a
datetime object is never falsy. -/
def calculate_priority (pass_streak : Int) (last_reviewed_at created_at : Option Rat)
    (now : Rat) : Rat :=
  match last_reviewed_at.or created_at with
  | none => 0
  | some ref => max ((now - ref) / 3600) 0 / expected_interval_hours pass_streak

/-! ## Data model (app/models.py rows; tables are lists in insertion order) -/

structure PositionRow where
  id : Nat
  user_id : Nat
  fen_hash : String
  fen_raw : String
  active_color : String
deriving DecidableEq

structure MoveRow where
  from_position_id : Nat
  move_san : String
  to_position_id : Nat
deriving DecidableEq

/-- Blunder row.  `created_at` is filled by a database-side default, so the
recorder model leaves it `none`; the SRS math treats it as an optional
timestamp either way. -/
structure BlunderRow where
  id : Nat
  user_id : Nat
  position_id : Nat
  bad_move_san : String
  best_move_san : String
  eval_loss_cp : Int
  pass_streak : Int
  last_reviewed_at : Option Rat
  created_at : Option Rat
deriving DecidableEq

structure SessionRow where
  id : Nat
  user_id : Nat
  player_color : String
  status : String
  engine_elo : Int
  blunder_recorded : Bool
deriving DecidableEq

structure DB where
  positions : List PositionRow
  moves : List MoveRow
  blunders : List BlunderRow
  sessions : List SessionRow
  next_position_id : Nat
  next_blunder_id : Nat
deriving DecidableEq

/-! ## app/api/srs.py review endpoint (state update and response payload) -/

structure SrsReviewResult where
  blunder_id : Nat
  pass_streak : Int
  priority : Rat
  next_expected_review : Rat
deriving DecidableEq

/-- app/api/srs.py `review_blunder`, the part after session/blunder
authorization: mutate the blunder row and build the response.  `reviewed_at`
is the wall clock read once by the endpoint. -/
def review_blunder_update (b : BlunderRow) (passed : Bool) (reviewed_at : Rat) :
    BlunderRow × SrsReviewResult :=
  let new_streak : Int := if passed then b.pass_streak + 1 else 0
  let b' := { b with pass_streak := new_streak, last_reviewed_at := some reviewed_at }
  let interval_hours := expected_interval_hours b'.pass_streak
  let next_expected_review := reviewed_at + interval_hours * 3600
  (b', ⟨b.id, b'.pass_streak,
        calculate_priority b'.pass_streak b'.last_reviewed_at b'.created_at reviewed_at,
        next_expected_review⟩)

/-! ## app/api/game.py `find_ghost_move` (recursive CTE, depth bound 15) -/

structure ReachRow where
  position_id : Nat
  depth : Nat
  path : List Nat
  first_move : Option String
deriving DecidableEq

def GHOST_MAX_DEPTH : Nat := 15

/-- One application of the recursive arm of the CTE to one working row:
follow each stored move edge out of the row's position, skipping targets
already on the path, carrying the first SAN of the walk. -/
def cteStep (moves : List MoveRow) (r : ReachRow) : List ReachRow :=
  if r.depth < GHOST_MAX_DEPTH then
    (moves.filter
        (fun m => m.from_position_id == r.position_id && !(r.path.contains m.to_position_id))).map
      (fun m => ⟨m.to_position_id, r.depth + 1, r.path ++ [m.to_position_id],
                 some (r.first_move.getD m.move_san)⟩)
  else []

/-- Working-table contents after n rounds of the recursive arm. -/
def cteLevels (moves : List MoveRow) (start : Nat) : Nat → List ReachRow
  | 0 => [⟨start, 0, [start], none⟩]
  | n + 1 => (cteLevels moves start n).flatMap (cteStep moves)

/-- All rows of the recursive CTE, in the breadth-first order both backends
produce (levels 0 through 15; a sixteenth round is empty by the depth guard). -/
def cteRows (moves : List MoveRow) (start : Nat) : List ReachRow :=
  (List.range (GHOST_MAX_DEPTH + 1)).flatMap (cteLevels moves start)

/-- The final SELECT of the CTE query: join reachable rows with positions and
this user's blunders, keep rows with a first move and a position whose active
color is the player's. -/
def ghostCandidateRows (db : DB) (user_id : Nat) (player_color : String) (start : Nat) :
    List (ReachRow × BlunderRow) :=
  (cteRows db.moves start).flatMap (fun r =>
    if r.first_move ≠ none then
      (db.positions.filter
          (fun p => p.id == r.position_id && p.active_color == player_color)).flatMap
        (fun _p =>
          (db.blunders.filter
              (fun b => b.position_id == r.position_id && b.user_id == user_id)).map
            (fun b => (r, b)))
    else [])

/-- app/api/game.py `find_ghost_move`: look up the current position by FEN
hash, run the CTE, return the first move and blunder id of the first result
row (`LIMIT 1`), or (none, none). -/
def find_ghost_move (e : EpOracle) (db : DB) (user_id : Nat) (fen : String)
    (player_color : String) : Option String × Option Nat :=
  match db.positions.find? (fun p => p.user_id == user_id && p.fen_hash == fen_hash e fen) with
  | none => (none, none)
  | some current =>
    match (ghostCandidateRows db user_id player_color current.id).head? with
    | none => (none, none)
    | some rb => (rb.1.first_move, some rb.2.id)

/-! ## Spec-side ghost scoring (section 4.E steps 5-6 of the spec) -/

/-- Modelled from the spec: candidate score
`priority * severity * distance` with `severity = max(eval_loss_cp, 0) / 50`
and `distance = 1 / (1 + 0.1 * depth)`.  This follows the specification
text; the code computes no score. -/
def specGhostScore (now : Rat) (c : ReachRow × BlunderRow) : Rat :=
  let priority := calculate_priority c.2.pass_streak c.2.last_reviewed_at c.2.created_at now
  let severity := max ((c.2.eval_loss_cp : Rat)) 0 / 50
  let distance := 1 / (1 + (c.1.depth : Rat) / 10)
  priority * severity * distance

/-- Modelled from the spec: the deterministic tie-break order, higher score,
then lower depth, then higher eval_loss_cp, then lower blunder id, then
lexicographically smaller first move. -/
def specBetter (now : Rat) (a b : ReachRow × BlunderRow) : Bool :=
  decide (specGhostScore now a > specGhostScore now b ∨
    (specGhostScore now a = specGhostScore now b ∧ (a.1.depth < b.1.depth ∨
      (a.1.depth = b.1.depth ∧ (a.2.eval_loss_cp > b.2.eval_loss_cp ∨
        (a.2.eval_loss_cp = b.2.eval_loss_cp ∧ (a.2.id < b.2.id ∨
          (a.2.id = b.2.id ∧
            a.1.first_move.getD emptyStr < b.1.first_move.getD emptyStr))))))))

/-- Modelled from the spec: pick the greatest candidate under the spec's
score-then-tie-break order. -/
def specBestCandidate (now : Rat) (cands : List (ReachRow × BlunderRow)) :
    Option (ReachRow × BlunderRow) :=
  cands.foldl
    (fun acc c =>
      match acc with
      | none => some c
      | some b => if specBetter now c b then some c else some b)
    none

/-! ## app/api/blunder.py (recorder) -/

inductive RecErr
  | invalidPgn
  | pgnTooShort
  | pgnTooLong
  | fenMismatch
  | wrongSideToMove
  | sessionNotFound
  | notAuthorized
deriving DecidableEq

/-- Output of the external PGN parse and board replay (python-chess): the
starting FEN and, for each mainline move in order, its SAN and the FEN after
pushing it.  `chess.pgn.read_game` returning None is `Option.none` at the
call site. -/
structure GameTrace where
  start_fen : String
  steps : List (String × String)
deriving DecidableEq

structure ReplayData where
  positions_data : List (String × String × String)
  moves_data : List (String × String × String)
  pre_move_fen_raw : String
  pre_move_hash : String
  pre_move_color : String
deriving DecidableEq

structure BlunderResponse where
  blunder_id : Option Nat
  position_id : Nat
  positions_created : Nat
  is_new : Bool
deriving DecidableEq

/-- app/api/blunder.py `_full_moves_played`. -/
def _full_moves_played (half_moves : Nat) : Nat := (half_moves + 1) / 2

def traceFens (g : GameTrace) : List String := g.start_fen :: g.steps.map Prod.snd

def windowExceeded (max_full_moves : Option Nat) (half_moves : Nat) : Bool :=
  match max_full_moves with
  | none => false
  | some mfm => decide (_full_moves_played half_moves > mfm)

/-- app/api/blunder.py `_replay_pgn`: build positions_data and moves_data from
the replayed game, enforce at least one move, the optional full-move window,
and that the second-to-last FEN normalizes equal to the claimed pre-move FEN. -/
def _replay_pgn (e : EpOracle) (game : Option GameTrace) (request_fen : String)
    (max_full_moves : Option Nat) : Except RecErr ReplayData :=
  match game with
  | none => .error .invalidPgn
  | some g =>
    let fens := traceFens g
    let positions_data := fens.map (fun f => (f, fen_hash e f, active_color f))
    let moves_data := (fens.zip g.steps).map (fun fs => (fen_hash e fs.1, fs.2.1, fen_hash e fs.2.2))
    if positions_data.length < 2 then .error .pgnTooShort
    else if windowExceeded max_full_moves moves_data.length then .error .pgnTooLong
    else
      let pre := positions_data.getD (positions_data.length - 2) (emptyStr, emptyStr, emptyStr)
      if normalize_fen e pre.1 ≠ normalize_fen e request_fen then .error .fenMismatch
      else .ok ⟨positions_data, moves_data, pre.1, pre.2.1, pre.2.2⟩

def assocLookup (l : List (String × Nat)) (k : String) : Option Nat :=
  (l.find? (fun p => p.1 == k)).map Prod.snd

/-- app/api/blunder.py `_upsert_positions`: for each (fen, hash, color) insert
a position row if the user has none with that hash; return the hash-to-id map
and the count of newly created rows. -/
def _upsert_positions (db : DB) (user_id : Nat)
    (positions_data : List (String × String × String)) : DB × List (String × Nat) × Nat :=
  positions_data.foldl
    (fun st pd =>
      let db := st.1
      let assoc := st.2.1
      let created := st.2.2
      let fen_raw := pd.1
      let hash_val := pd.2.1
      let color := pd.2.2
      match db.positions.find? (fun p => p.user_id == user_id && p.fen_hash == hash_val) with
      | some ex => (db, (hash_val, ex.id) :: assoc, created)
      | none =>
        let pid := db.next_position_id
        ({ db with
            positions := db.positions ++ [⟨pid, user_id, hash_val, fen_raw, color⟩],
            next_position_id := pid + 1 },
         (hash_val, pid) :: assoc, created + 1))
    (db, [], 0)

/-- app/api/blunder.py `_upsert_moves`: insert each (from, san, to) edge unless
an edge with that (from, san) already exists. -/
def _upsert_moves (db : DB) (moves_data : List (String × String × String))
    (assoc : List (String × Nat)) : DB :=
  moves_data.foldl
    (fun db md =>
      let from_id := (assocLookup assoc md.1).getD 0
      let to_id := (assocLookup assoc md.2.2).getD 0
      match db.moves.find? (fun m => m.from_position_id == from_id && m.move_san == md.2.1) with
      | some _ => db
      | none => { db with moves := db.moves ++ [⟨from_id, md.2.1, to_id⟩] })
    db

/-- app/api/blunder.py `_upsert_blunder_target`: return the existing blunder
for (user, position) untouched, else insert a fresh one with streak 0. -/
def _upsert_blunder_target (db : DB) (user_id : Nat) (position_id : Nat)
    (user_move best_move : String) (eval_loss : Int) : DB × Nat × Bool :=
  match db.blunders.find? (fun b => b.user_id == user_id && b.position_id == position_id) with
  | some ex => (db, ex.id, false)
  | none =>
    let bid := db.next_blunder_id
    ({ db with
        blunders := db.blunders ++
          [⟨bid, user_id, position_id, user_move, best_move, eval_loss, 0, none, none⟩],
        next_blunder_id := bid + 1 },
     bid, true)

def setBlunderRecorded (db : DB) (session_id : Nat) : DB :=
  { db with
      sessions := db.sessions.map
        (fun s => if s.id == session_id then { s with blunder_recorded := true } else s) }

/-- app/api/blunder.py `_record_target`: replay, check side to move, upsert
positions, edges and the blunder, optionally flip the session flag, commit.
An `.error` result means the exception aborted the transaction: nothing was
committed. -/
def _record_target (e : EpOracle) (db : DB) (session : SessionRow) (user_id : Nat)
    (game : Option GameTrace) (request_fen user_move best_move : String)
    (eval_before eval_after : Int) (mark_first_blunder_recorded : Bool)
    (max_full_moves : Option Nat) : Except RecErr (DB × BlunderResponse) :=
  match _replay_pgn e game request_fen max_full_moves with
  | .error err => .error err
  | .ok rd =>
    if rd.pre_move_color ≠ session.player_color then .error .wrongSideToMove
    else
      let up := _upsert_positions db user_id rd.positions_data
      let db2 := _upsert_moves up.1 rd.moves_data up.2.1
      let pre_id := (assocLookup up.2.1 rd.pre_move_hash).getD 0
      let ub := _upsert_blunder_target db2 user_id pre_id user_move best_move
        (eval_before - eval_after)
      let db4 := if mark_first_blunder_recorded then setBlunderRecorded ub.1 session.id else ub.1
      .ok (db4, ⟨some ub.2.1, pre_id, up.2.2, ub.2.2⟩)

def AUTO_RECORDING_MAX_FULL_MOVES : Nat := 10

/-- app/api/blunder.py `record_blunder` (the automatic endpoint): fetch and
authorize the session; if its first-blunder flag is already set, return the
sentinel payload without touching the database or replaying the PGN; else
record with the flag and the 10-full-move window. -/
def record_blunder (e : EpOracle) (db : DB) (user_id : Nat) (session_id : Nat)
    (game : Option GameTrace) (request_fen user_move best_move : String)
    (eval_before eval_after : Int) : Except RecErr (DB × BlunderResponse) :=
  match db.sessions.find? (fun s => s.id == session_id) with
  | none => .error .sessionNotFound
  | some s =>
    if s.user_id ≠ user_id then .error .notAuthorized
    else if s.blunder_recorded then .ok (db, ⟨none, 0, 0, false⟩)
    else _record_target e db s user_id game request_fen user_move best_move
      eval_before eval_after true (some AUTO_RECORDING_MAX_FULL_MOVES)

/-! ## app/opponent_move_controller.py `_calibrated_selection`
The Maia candidate list, the Stockfish evaluations and the sampled target
loss are inputs (they come from external services); `math.log` is the
abstract function `ln`. -/

structure MaiaCandidate where
  uci : String
  san : String
  probability : Rat
deriving DecidableEq

structure CandidateEval where
  uci : String
  cp_score : Int
  cp_loss_vs_best : Int
deriving DecidableEq

structure ControllerMove where
  uci : String
  san : String
  method : String
deriving DecidableEq

def HUMAN_PENALTY_WEIGHT : Rat := 15

/-- The `eval_by_uci` dict comprehension: later list entries overwrite
earlier ones. -/
def evalByUci (evals : List CandidateEval) (uci : String) : Option CandidateEval :=
  evals.foldl (fun acc ev => if ev.uci == uci then some ev else acc) none

/-- The selection score of one evaluated candidate:
`|loss_vs_best - target| + 15 * (-ln (max p 0.001))`. -/
def calibScore (ln : Rat → Rat) (target_loss : Rat) (c : MaiaCandidate)
    (ev : CandidateEval) : Rat :=
  |(ev.cp_loss_vs_best : Rat) - target_loss| +
    HUMAN_PENALTY_WEIGHT * (-(ln (max c.probability (1 / 1000))))

/-- One iteration of the selection loop: skip candidates without an
evaluation, keep the strictly best score seen so far (`none` is the initial
infinity). -/
def calibStep (ln : Rat → Rat) (target_loss : Rat) (evals : List CandidateEval)
    (st : Option Rat × MaiaCandidate) (c : MaiaCandidate) : Option Rat × MaiaCandidate :=
  match evalByUci evals c.uci with
  | none => st
  | some ev =>
    let score := calibScore ln target_loss c ev
    match st.1 with
    | none => (some score, c)
    | some best_score => if score < best_score then (some score, c) else st

def calibratedStr : String := "calibrated"

/-- app/opponent_move_controller.py `_calibrated_selection`, after the
external calls: fold the loop over the candidates, starting from the first
candidate with an infinite best score, and return the winner. -/
def _calibrated_selection (ln : Rat → Rat) (candidates : List MaiaCandidate)
    (evals : List CandidateEval) (target_loss : Rat) : ControllerMove :=
  let final := candidates.foldl (calibStep ln target_loss evals)
    (none, candidates.headD ⟨emptyStr, emptyStr, 0⟩)
  ⟨final.2.uci, final.2.san, calibratedStr⟩

/-! ## Specification notions used by the theorems -/

/-- Walks in the stored move graph: Reaches moves a b n means b is reachable
from a along n stored edges. -/
inductive Reaches (moves : List MoveRow) : Nat → Nat → Nat → Prop
  | refl (a : Nat) : Reaches moves a a 0
  | step {a b : Nat} {n : Nat} (hr : Reaches moves a b n) (m : MoveRow)
      (hm : m ∈ moves) (hfrom : m.from_position_id = b) :
      Reaches moves a m.to_position_id (n + 1)

/-- Loop invariant of the calibrated-selection fold: either no processed
candidate had an evaluation and the best score is still the initial
infinity, or the state holds a processed evaluated candidate whose score is
minimal among the processed evaluated candidates. -/
def calibInvariant (ln : Rat → Rat) (target : Rat) (evals : List CandidateEval)
    (processed : List MaiaCandidate) (st : Option Rat × MaiaCandidate) : Prop :=
  (st.1 = none ∧ ∀ c ∈ processed, evalByUci evals c.uci = none) ∨
  (∃ s, st.1 = some s ∧ ∃ c ∈ processed, ∃ ev, evalByUci evals c.uci = some ev ∧
     s = calibScore ln target c ev ∧ st.2 = c ∧
     ∀ c' ∈ processed, ∀ ev', evalByUci evals c'.uci = some ev' →
       s ≤ calibScore ln target c' ev')

/-! ## Concrete instances used by witnesses and counterexamples -/

/-- An oracle for positions with no legal en-passant capture anywhere. -/
def epFalse : EpOracle := ⟨fun _ _ _ _ => false⟩

def fenStartA : String := "rnbqkbnr/pppppppp/8/8/8/8/PPPPPPPP/RNBQKBNR w KQkq - 0 1"

/-- The starting position with a spurious en-passant square and different
halfmove/fullmove counters. -/
def fenStartB : String := "rnbqkbnr/pppppppp/8/8/8/8/PPPPPPPP/RNBQKBNR w KQkq e3 5 42"

def fenAfterE4 : String := "rnbqkbnr/pppppppp/8/8/4P3/8/PPPPPPPP/RNBQKBNR b KQkq e3 0 1"

/-- A one-move replay trace: 1. e4 from the start position. -/
def g0 : GameTrace := ⟨fenStartA, [(("e4"), fenAfterE4)]⟩

/-- An active session of a black player, first-blunder flag unset. -/
def sessionB : SessionRow := ⟨1, 7, blackStr, ("active"), 800, false⟩

def emptyDb : DB := ⟨[], [], [], [], 1, 1⟩

/-- An active session whose first-blunder flag is already set. -/
def sessionFlagged : SessionRow := ⟨2, 7, whiteStr, ("active"), 800, true⟩

def dbWithSession : DB := ⟨[], [], [], [sessionFlagged], 1, 1⟩

/-- A user-7 graph that is a single chain 1 → 2 → … → k with moves named m1,
m2, …, and one blunder (id 100) on the last position; position 1 carries the
hash of the start FEN, every position is white to move. -/
def chainDb (k : Nat) : DB :=
  { positions := (List.range k).map
      (fun i => ⟨i + 1, 7, if i == 0 then fen_hash epFalse fenStartA else toString (i + 1),
                 emptyStr, whiteStr⟩),
    moves := (List.range (k - 1)).map (fun i => ⟨i + 1, ("m") ++ toString (i + 1), i + 2⟩),
    blunders := [⟨100, 7, k, emptyStr, emptyStr, 200, 0, none, none⟩],
    sessions := [],
    next_position_id := k + 1,
    next_blunder_id := 101 }

/-- A user-7 graph branching at the start: move a reaches position 2 (depth 1,
blunder 11 with zero eval loss), moves b then c reach position 4 (depth 2,
blunder 12 with eval loss 5000); both blunders were last reviewed at time 0. -/
def c2Db : DB :=
  { positions := [⟨1, 7, fen_hash epFalse fenStartA, emptyStr, blackStr⟩,
                  ⟨2, 7, ("h2"), emptyStr, whiteStr⟩,
                  ⟨3, 7, ("h3"), emptyStr, blackStr⟩,
                  ⟨4, 7, ("h4"), emptyStr, whiteStr⟩],
    moves := [⟨1, ("a"), 2⟩, ⟨1, ("b"), 3⟩, ⟨3, ("c"), 4⟩],
    blunders := [⟨11, 7, 2, emptyStr, emptyStr, 0, 0, some 0, none⟩,
                 ⟨12, 7, 4, emptyStr, emptyStr, 5000, 0, some 0, none⟩],
    sessions := [],
    next_position_id := 5,
    next_blunder_id := 13 }

def c2row1 : ReachRow := ⟨2, 1, [1, 2], some (("a"))⟩

def c2row2 : ReachRow := ⟨4, 2, [1, 3, 4], some (("b"))⟩

def c2b11 : BlunderRow := ⟨11, 7, 2, emptyStr, emptyStr, 0, 0, some 0, none⟩

def c2b12 : BlunderRow := ⟨12, 7, 4, emptyStr, emptyStr, 5000, 0, some 0, none⟩

/-- The S6 stub candidate set of test_opponent_move_controller.py. -/
def mockCandidates : List MaiaCandidate :=
  [⟨("g1f3"), ("Nf3"), 35 / 100⟩,
   ⟨("b1c3"), ("Nc3"), 22 / 100⟩,
   ⟨("d2d4"), ("d4"), 18 / 100⟩,
   ⟨("f1c4"), ("Bc4"), 8 / 100⟩,
   ⟨("f2f4"), ("f4"), 5 / 100⟩,
   ⟨("d1h5"), ("Qh5"), 3 / 100⟩,
   ⟨("g2g3"), ("g3"), 2 / 100⟩,
   ⟨("a2a3"), ("a3"), 15 / 1000⟩]

/-- The S6 stub Stockfish evaluations of test_opponent_move_controller.py. -/
def mockEvals : List CandidateEval :=
  [⟨("g1f3"), 50, 0⟩,
   ⟨("b1c3"), 43, 7⟩,
   ⟨("d2d4"), 26, 24⟩,
   ⟨("f1c4"), 39, 11⟩,
   ⟨("f2f4"), -2, 52⟩,
   ⟨("d1h5"), -51, 101⟩,
   ⟨("g2g3"), -6, 56⟩,
   ⟨("a2a3"), -18, 68⟩]

end GhostReplay

namespace GhostReplay

/-! ## Theorems -/

theorem find?_append_singleton_none {α : Type} (p : α → Bool) {l : List α} (a : α)
    (h : l.find? p = none) (ha : p a = true) : (l ++ [a]).find? p = some a := by
  rw [List.find?_append, h]
  simp [List.find?, ha]

/-- C9: every successful SRS review responds with priority 0: the endpoint
sets last_reviewed_at to the very timestamp it passes as now into the
priority computation, so the elapsed time is 0 whatever the streak or
history. -/
theorem review_response_priority_is_zero (b : BlunderRow) (passed : Bool) (now : Rat) :
    (review_blunder_update b passed now).2.priority = 0 := by
  simp [review_blunder_update, calculate_priority, Option.or, sub_self, zero_div, max_self]

/-- C4: the SRS interval formula, the priority formula with its
last_reviewed_at-then-created_at fallback and zero default, and the review
update: passed increments the streak, failed resets it to 0,
last_reviewed_at becomes now, and the next expected review is now plus the
expected interval of the new streak (hours, i.e. 3600 seconds each). -/
theorem srs_math_and_review_contract :
    (∀ s : Int, expected_interval_hours s = min 4320 (2 ^ (max s 0).toNat)) ∧
    (∀ (s : Int) (now : Rat), calculate_priority s none none now = 0) ∧
    (∀ (s : Int) (r : Rat) (ca : Option Rat) (now : Rat),
       calculate_priority s (some r) ca now =
         max ((now - r) / 3600) 0 / expected_interval_hours s) ∧
    (∀ (s : Int) (ca now : Rat),
       calculate_priority s none (some ca) now =
         max ((now - ca) / 3600) 0 / expected_interval_hours s) ∧
    (∀ (b : BlunderRow) (passed : Bool) (now : Rat),
       (review_blunder_update b passed now).1.pass_streak
           = (if passed then b.pass_streak + 1 else 0) ∧
       (review_blunder_update b passed now).1.last_reviewed_at = some now ∧
       (review_blunder_update b passed now).2.pass_streak
           = (if passed then b.pass_streak + 1 else 0) ∧
       (review_blunder_update b passed now).2.next_expected_review
           = now + expected_interval_hours (if passed then b.pass_streak + 1 else 0) * 3600) := by
  refine ⟨?_, ?_, ?_, ?_, ?_⟩
  · intro s
    simp [expected_interval_hours, BASE_INTERVAL_HOURS, BACKOFF_FACTOR, MAX_INTERVAL_HOURS,
      min_comm]
  · intro s now; simp [calculate_priority, Option.or]
  · intro s r ca now; simp [calculate_priority, Option.or]
  · intro s ca now; simp [calculate_priority, Option.or]
  · intro b passed now
    exact ⟨rfl, rfl, rfl, rfl⟩

/-- C7: recording the same (user, position) key twice: the second upsert
returns the blunder id produced by the first, reports is_new = false, and
leaves the whole store (hence the stored move annotations, streak and review
timestamp of the existing blunder) unchanged. -/
theorem upsert_blunder_reuses_existing (db : DB) (user pos : Nat)
    (um1 bm1 um2 bm2 : String) (el1 el2 : Int) :
    (_upsert_blunder_target (_upsert_blunder_target db user pos um1 bm1 el1).1
        user pos um2 bm2 el2).2.1
      = (_upsert_blunder_target db user pos um1 bm1 el1).2.1 ∧
    (_upsert_blunder_target (_upsert_blunder_target db user pos um1 bm1 el1).1
        user pos um2 bm2 el2).2.2 = false ∧
    (_upsert_blunder_target (_upsert_blunder_target db user pos um1 bm1 el1).1
        user pos um2 bm2 el2).1
      = (_upsert_blunder_target db user pos um1 bm1 el1).1 := by
  cases h : db.blunders.find? (fun b => b.user_id == user && b.position_id == pos) with
  | some ex =>
    simp [_upsert_blunder_target, h]
  | none =>
    have hfind := find?_append_singleton_none
      (fun b => b.user_id == user && b.position_id == pos)
      ((⟨db.next_blunder_id, user, pos, um1, bm1, el1, 0, none, none⟩ : BlunderRow)) h
      (by simp)
    simp [_upsert_blunder_target, h, hfind]

/-- C10: an automatic blunder record on a session whose first-blunder flag is
already set returns the sentinel payload (null blunder id, position 0, zero
positions created, is_new false) with the store untouched; the payload
arguments are arbitrary and unexamined, so no replay or validation happens. -/
theorem record_blunder_sentinel_when_flag_set (e : EpOracle) (db : DB) (user sid : Nat)
    (s : SessionRow) (game : Option GameTrace) (request_fen um bm : String) (eb ea : Int)
    (hs : db.sessions.find? (fun x => x.id == sid) = some s)
    (hu : s.user_id = user) (hb : s.blunder_recorded = true) :
    record_blunder e db user sid game request_fen um bm eb ea
      = .ok (db, ⟨none, 0, 0, false⟩) := by
  simp [record_blunder, hs, hu, hb]

/-- C10 witness: a store holding one flagged session returns the sentinel for
an arbitrary (here empty) payload. -/
theorem record_blunder_sentinel_witness :
    record_blunder epFalse dbWithSession 7 2 none emptyStr emptyStr emptyStr 0 0
      = .ok (dbWithSession, ⟨none, 0, 0, false⟩) :=
  record_blunder_sentinel_when_flag_set epFalse dbWithSession 7 2 sessionFlagged
    none emptyStr emptyStr emptyStr 0 0 (by decide) rfl rfl

/-- C5: fen_hash is invariant across FENs agreeing on the first three fields
when the en-passant fields agree or neither position admits a legal
en-passant capture (covering pairs differing only in halfmove/fullmove
counters or only in a spurious en-passant square); and normalize keeps
exactly the first four fields, retaining the en-passant field exactly when a
legal en-passant capture exists, else forcing `-`. -/
theorem fen_hash_identity (e : EpOracle) :
    (∀ a b : String,
       fenField a 0 = fenField b 0 → fenField a 1 = fenField b 1 →
       fenField a 2 = fenField b 2 →
       (fenField a 3 = fenField b 3 ∨ (epLegalIn e a = false ∧ epLegalIn e b = false)) →
       fen_hash e a = fen_hash e b) ∧
    (∀ fen : String, epLegalIn e fen = false →
       normalize_fen e fen = String.intercalate spaceStr
         [fenField fen 0, fenField fen 1, fenField fen 2, dashStr]) ∧
    (∀ fen : String, epLegalIn e fen = true →
       normalize_fen e fen = String.intercalate spaceStr
         [fenField fen 0, fenField fen 1, fenField fen 2, fenField fen 3]) := by
  refine ⟨?_, ?_, ?_⟩
  · intro a b h0 h1 h2 h3
    have hep : normalize_fen e a = normalize_fen e b := by
      rcases h3 with h3 | ⟨ha, hb⟩
      · have : epLegalIn e a = epLegalIn e b := by
          simp [epLegalIn, h0, h1, h2, h3]
        simp [normalize_fen, h0, h1, h2, h3, this]
      · simp [normalize_fen, ha, hb, h0, h1, h2]
    simp [fen_hash, hep]
  · intro fen h; simp [normalize_fen, h]
  · intro fen h; simp [normalize_fen, h]

/-- C5 witness: the standard start position keeps the same hash when the
counters change and a spurious en-passant square (no capture legal) is
written. -/
theorem fen_hash_identity_witness :
    fen_hash epFalse fenStartA = fen_hash epFalse fenStartB :=
  (fen_hash_identity epFalse).1 fenStartA fenStartB (by decide) (by decide) (by decide)
    (Or.inr ⟨by decide, by decide⟩)

theorem getD_map_of_lt {α β : Type} (f : α → β) (l : List α) (i : Nat) (d : β) (d' : α)
    (h : i < l.length) : (l.map f).getD i d = f (l.getD i d') := by
  rw [List.getD_eq_getElem?_getD, List.getD_eq_getElem?_getD, List.getElem?_map,
    List.getElem?_eq_getElem h]
  simp

theorem replay_hpre (e : EpOracle) (g : GameTrace) :
    ((traceFens g).map (fun f => (f, fen_hash e f, active_color f))).getD
      (((traceFens g).map (fun f => (f, fen_hash e f, active_color f))).length - 2)
      (emptyStr, emptyStr, emptyStr)
      = ((traceFens g).getD ((traceFens g).length - 2) emptyStr,
         fen_hash e ((traceFens g).getD ((traceFens g).length - 2) emptyStr),
         active_color ((traceFens g).getD ((traceFens g).length - 2) emptyStr)) := by
  have hlenfens : (traceFens g).length = g.steps.length + 1 := by simp [traceFens]
  rw [List.length_map]
  exact getD_map_of_lt _ _ _ _ emptyStr (by omega)

theorem replay_err_fen_mismatch (e : EpOracle) (g : GameTrace) (request_fen : String)
    (mfm : Option Nat)
    (hsteps : g.steps ≠ [])
    (hwin : windowExceeded mfm g.steps.length = false)
    (hmm : normalize_fen e ((traceFens g).getD ((traceFens g).length - 2) emptyStr)
        ≠ normalize_fen e request_fen) :
    _replay_pgn e (some g) request_fen mfm = .error .fenMismatch := by
  have hlenfens : (traceFens g).length = g.steps.length + 1 := by simp [traceFens]
  have hsl : g.steps.length ≠ 0 := by simpa using hsteps
  have hlz : ((traceFens g).zip g.steps).length = g.steps.length := by
    simp [hlenfens]
  have hlm : (((traceFens g).zip g.steps).map
      (fun fs => (fen_hash e fs.1, fs.2.1, fen_hash e fs.2.2))).length = g.steps.length := by
    rw [List.length_map, hlz]
  simp only [_replay_pgn, replay_hpre]
  rw [if_neg (show ¬ (((traceFens g).map
      (fun f => (f, fen_hash e f, active_color f))).length < 2) from by
    rw [List.length_map, hlenfens]; omega)]
  rw [hlm, hwin]
  rw [if_neg (by simp)]
  rw [if_pos hmm]

theorem replay_ok (e : EpOracle) (g : GameTrace) (request_fen : String)
    (mfm : Option Nat)
    (hsteps : g.steps ≠ [])
    (hwin : windowExceeded mfm g.steps.length = false)
    (hmm : normalize_fen e ((traceFens g).getD ((traceFens g).length - 2) emptyStr)
        = normalize_fen e request_fen) :
    _replay_pgn e (some g) request_fen mfm = .ok
      ⟨(traceFens g).map (fun f => (f, fen_hash e f, active_color f)),
       ((traceFens g).zip g.steps).map (fun fs => (fen_hash e fs.1, fs.2.1, fen_hash e fs.2.2)),
       (traceFens g).getD ((traceFens g).length - 2) emptyStr,
       fen_hash e ((traceFens g).getD ((traceFens g).length - 2) emptyStr),
       active_color ((traceFens g).getD ((traceFens g).length - 2) emptyStr)⟩ := by
  have hlenfens : (traceFens g).length = g.steps.length + 1 := by simp [traceFens]
  have hsl : g.steps.length ≠ 0 := by simpa using hsteps
  have hlz : ((traceFens g).zip g.steps).length = g.steps.length := by
    simp [hlenfens]
  have hlm : (((traceFens g).zip g.steps).map
      (fun fs => (fen_hash e fs.1, fs.2.1, fen_hash e fs.2.2))).length = g.steps.length := by
    rw [List.length_map, hlz]
  simp only [_replay_pgn, replay_hpre]
  rw [if_neg (show ¬ (((traceFens g).map
      (fun f => (f, fen_hash e f, active_color f))).length < 2) from by
    rw [List.length_map, hlenfens]; omega)]
  rw [hlm, hwin]
  rw [if_neg (by simp)]
  rw [if_neg (not_not_intro hmm)]

theorem record_target_err_fen_mismatch (e : EpOracle) (g : GameTrace)
    (request_fen : String) (mfm : Option Nat) (db : DB) (session : SessionRow)
    (user : Nat) (um bm : String) (eb ea : Int) (mark : Bool)
    (hsteps : g.steps ≠ [])
    (hwin : windowExceeded mfm g.steps.length = false)
    (hmm : normalize_fen e ((traceFens g).getD ((traceFens g).length - 2) emptyStr)
        ≠ normalize_fen e request_fen) :
    _record_target e db session user (some g) request_fen um bm eb ea mark mfm
      = .error .fenMismatch := by
  unfold _record_target
  rw [replay_err_fen_mismatch e g request_fen mfm hsteps hwin hmm]

theorem record_target_err_wrong_side (e : EpOracle) (g : GameTrace)
    (request_fen : String) (mfm : Option Nat) (db : DB) (session : SessionRow)
    (user : Nat) (um bm : String) (eb ea : Int) (mark : Bool)
    (hsteps : g.steps ≠ [])
    (hwin : windowExceeded mfm g.steps.length = false)
    (hmm : normalize_fen e ((traceFens g).getD ((traceFens g).length - 2) emptyStr)
        = normalize_fen e request_fen)
    (hcolor : active_color ((traceFens g).getD ((traceFens g).length - 2) emptyStr)
        ≠ session.player_color) :
    _record_target e db session user (some g) request_fen um bm eb ea mark mfm
      = .error .wrongSideToMove := by
  unfold _record_target
  rw [replay_ok e g request_fen mfm hsteps hwin hmm]
  simp only []
  rw [if_pos hcolor]

/-- C6: the recorder fails fast.  When the replayed second-to-last FEN does
not normalize equal to the claimed pre-move FEN, _record_target is the
FenMismatch error; when it does but its side to move differs from the
session's player color, it is the WrongSideToMove error.  In both cases the
result is an error of the Except monad, i.e. the transaction commits no
Position, Move, Blunder or session-flag write (the model threads the store
only through the .ok constructor). -/
theorem recorder_fail_fast :
    (∀ (e : EpOracle) (db : DB) (session : SessionRow) (user : Nat) (g : GameTrace)
        (request_fen um bm : String) (eb ea : Int) (mark : Bool) (mfm : Option Nat),
       g.steps ≠ [] →
       windowExceeded mfm g.steps.length = false →
       normalize_fen e ((traceFens g).getD ((traceFens g).length - 2) emptyStr)
           ≠ normalize_fen e request_fen →
       _record_target e db session user (some g) request_fen um bm eb ea mark mfm
         = .error .fenMismatch) ∧
    (∀ (e : EpOracle) (db : DB) (session : SessionRow) (user : Nat) (g : GameTrace)
        (request_fen um bm : String) (eb ea : Int) (mark : Bool) (mfm : Option Nat),
       g.steps ≠ [] →
       windowExceeded mfm g.steps.length = false →
       normalize_fen e ((traceFens g).getD ((traceFens g).length - 2) emptyStr)
           = normalize_fen e request_fen →
       active_color ((traceFens g).getD ((traceFens g).length - 2) emptyStr)
           ≠ session.player_color →
       _record_target e db session user (some g) request_fen um bm eb ea mark mfm
         = .error .wrongSideToMove) :=
  ⟨fun e db session user g request_fen um bm eb ea mark mfm hsteps hwin hmm =>
     record_target_err_fen_mismatch e g request_fen mfm db session user um bm eb ea mark
       hsteps hwin hmm,
   fun e db session user g request_fen um bm eb ea mark mfm hsteps hwin hmm hcolor =>
     record_target_err_wrong_side e g request_fen mfm db session user um bm eb ea mark
       hsteps hwin hmm hcolor⟩

/-- C6 witness: recording 1. e4 with the after-move FEN claimed as the
pre-move position is a FenMismatch; recording it with the correct pre-move
FEN but a black-player session is a WrongSideToMove. -/
theorem recorder_fail_fast_witness :
    _record_target epFalse emptyDb sessionB 7 (some g0) fenAfterE4 ("Qh5") ("Nf3")
        50 (-100) true (some 10) = .error .fenMismatch ∧
    _record_target epFalse emptyDb sessionB 7 (some g0) fenStartA ("Qh5") ("Nf3")
        50 (-100) true (some 10) = .error .wrongSideToMove :=
  ⟨recorder_fail_fast.1 epFalse emptyDb sessionB 7 g0 fenAfterE4 ("Qh5") ("Nf3")
     50 (-100) true (some 10) (by decide) (by decide) (by decide),
   recorder_fail_fast.2 epFalse emptyDb sessionB 7 g0 fenStartA ("Qh5") ("Nf3")
     50 (-100) true (some 10) (by decide) (by decide) (by decide) (by decide)⟩

theorem mem_cteStep {moves : List MoveRow} {r r' : ReachRow}
    (h : r' ∈ cteStep moves r) :
    r.depth < GHOST_MAX_DEPTH ∧ ∃ m ∈ moves, m.from_position_id = r.position_id ∧
      m.to_position_id ∉ r.path ∧
      r' = ⟨m.to_position_id, r.depth + 1, r.path ++ [m.to_position_id],
            some (r.first_move.getD m.move_san)⟩ := by
  by_cases hd : r.depth < GHOST_MAX_DEPTH
  · refine ⟨hd, ?_⟩
    rw [cteStep, if_pos hd] at h
    rcases List.mem_map.mp h with ⟨m, hm, rfl⟩
    rcases List.mem_filter.mp hm with ⟨hmem, hcond⟩
    simp only [Bool.and_eq_true] at hcond
    refine ⟨m, hmem, by simpa using hcond.1, ?_, rfl⟩
    simpa using hcond.2
  · rw [cteStep, if_neg hd] at h
    exact absurd h (List.not_mem_nil _)

theorem mem_cteLevels {moves : List MoveRow} {start : Nat} :
    ∀ {n : Nat} {r : ReachRow}, r ∈ cteLevels moves start n →
      r.depth = n ∧ start ∈ r.path ∧ Reaches moves start r.position_id n ∧
      (n = 0 → r = ⟨start, 0, [start], none⟩) ∧
      (n ≠ 0 → r.position_id ≠ start ∧ ∃ s, r.first_move = some s) := by
  intro n
  induction n with
  | zero =>
    intro r h
    rw [cteLevels] at h
    rcases List.mem_singleton.mp h with rfl
    exact ⟨rfl, List.mem_singleton_self _, Reaches.refl start, fun _ => rfl,
      fun h0 => absurd rfl h0⟩
  | succ n ih =>
    intro r h
    rw [cteLevels] at h
    rcases List.mem_flatMap.mp h with ⟨r0, hr0, hstep⟩
    rcases mem_cteStep hstep with ⟨hdlt, m, hm, hfrom, hnotin, rfl⟩
    rcases ih hr0 with ⟨hdepth, hstart, hreach, _, _⟩
    refine ⟨by simp [hdepth], ?_, ?_, by simp, ?_⟩
    · simp [List.mem_append, hstart]
    · rw [hdepth]
      exact Reaches.step hreach m hm (by rw [hfrom])
    · intro _
      constructor
      · change m.to_position_id ≠ start
        intro heq
        exact hnotin (heq ▸ hstart)
      · exact ⟨_, rfl⟩

theorem mem_cteRows {moves : List MoveRow} {start : Nat} {r : ReachRow}
    (h : r ∈ cteRows moves start) :
    ∃ n ≤ GHOST_MAX_DEPTH, r ∈ cteLevels moves start n := by
  rcases List.mem_flatMap.mp h with ⟨n, hn, hr⟩
  exact ⟨n, by simpa [Nat.lt_succ_iff] using List.mem_range.mp hn, hr⟩

theorem mem_ghostCandidateRows {db : DB} {user : Nat} {color : String} {start : Nat}
    {rb : ReachRow × BlunderRow} (h : rb ∈ ghostCandidateRows db user color start) :
    rb.1 ∈ cteRows db.moves start ∧ rb.1.first_move ≠ none ∧
      (∃ p ∈ db.positions, p.id = rb.1.position_id ∧ p.active_color = color) ∧
      rb.2 ∈ db.blunders ∧ rb.2.position_id = rb.1.position_id ∧ rb.2.user_id = user := by
  rcases List.mem_flatMap.mp h with ⟨r, hr, hin⟩
  by_cases hfm : r.first_move ≠ none
  · rw [if_pos hfm] at hin
    rcases List.mem_flatMap.mp hin with ⟨p, hp, hmapped⟩
    rcases List.mem_map.mp hmapped with ⟨b, hb, rfl⟩
    rcases List.mem_filter.mp hp with ⟨hpmem, hpcond⟩
    simp only [Bool.and_eq_true] at hpcond
    rcases List.mem_filter.mp hb with ⟨hbmem, hbcond⟩
    simp only [Bool.and_eq_true] at hbcond
    exact ⟨hr, hfm, ⟨p, hpmem, by simpa using hpcond.1, by simpa using hpcond.2⟩,
      hbmem, by simpa using hbcond.1, by simpa using hbcond.2⟩
  · rw [if_neg hfm] at hin
    exact absurd hin (List.not_mem_nil _)

theorem head_key_min {β : Type} (key : β → Nat) :
    ∀ (ns : List Nat) (f : Nat → List β), ns.Pairwise (· ≤ ·) →
      (∀ n x, x ∈ f n → key x = n) →
      ∀ hd, (ns.flatMap f).head? = some hd → ∀ x ∈ ns.flatMap f, key hd ≤ key x := by
  intro ns
  induction ns with
  | nil => intro f _ _ hd hhd; simp at hhd
  | cons n ns ih =>
    intro f hpw hkey hd hhd x hx
    rw [List.flatMap_cons] at hhd hx
    cases hfn : f n with
    | nil =>
      rw [hfn] at hhd hx
      simp only [List.nil_append] at hhd hx
      exact ih f (List.Pairwise.sublist (List.sublist_cons_self n ns) hpw) hkey hd hhd x hx
    | cons y ys =>
      rw [hfn] at hhd hx
      have hd_eq : hd = y := by
        simp [List.head?_append, List.head?] at hhd
        exact hhd.symm
      have hkeyhd : key hd = n := hd_eq ▸ hkey n y (by rw [hfn]; exact List.mem_cons_self y ys)
      rcases List.mem_append.mp hx with hx1 | hx2
      · have : key x = n := hkey n x (by rw [hfn]; exact hx1)
        omega
      · rcases List.mem_flatMap.mp hx2 with ⟨m, hm, hxm⟩
        have hnm : n ≤ m := (List.pairwise_cons.mp hpw).1 m hm
        have : key x = m := hkey m x hxm
        omega

theorem ghostCandidateRows_eq_flatMap (db : DB) (user : Nat) (color : String) (start : Nat) :
    ghostCandidateRows db user color start =
      (List.range (GHOST_MAX_DEPTH + 1)).flatMap
        (fun n => (cteLevels db.moves start n).flatMap (fun r =>
          if r.first_move ≠ none then
            (db.positions.filter
                (fun p => p.id == r.position_id && p.active_color == color)).flatMap
              (fun _p =>
                (db.blunders.filter
                    (fun b => b.position_id == r.position_id && b.user_id == user)).map
                  (fun b => (r, b)))
          else [])) := by
  rw [ghostCandidateRows, cteRows, List.flatMap_assoc]

theorem candidate_depth_of_level {db : DB} {user : Nat} {color : String} {start n : Nat}
    {rb : ReachRow × BlunderRow}
    (h : rb ∈ (cteLevels db.moves start n).flatMap (fun r =>
          if r.first_move ≠ none then
            (db.positions.filter
                (fun p => p.id == r.position_id && p.active_color == color)).flatMap
              (fun _p =>
                (db.blunders.filter
                    (fun b => b.position_id == r.position_id && b.user_id == user)).map
                  (fun b => (r, b)))
          else [])) : rb.1.depth = n := by
  rcases List.mem_flatMap.mp h with ⟨r, hr, hin⟩
  have h1 : rb.1 = r := by
    by_cases hfm : r.first_move ≠ none
    · rw [if_pos hfm] at hin
      rcases List.mem_flatMap.mp hin with ⟨p, _, hmapped⟩
      rcases List.mem_map.mp hmapped with ⟨b, _, rfl⟩
      rfl
    · rw [if_neg hfm] at hin
      exact absurd hin (List.not_mem_nil _)
  rw [h1]
  exact (mem_cteLevels hr).1

theorem ghost_head_depth_min {db : DB} {user : Nat} {color : String} {start : Nat}
    {hd : ReachRow × BlunderRow}
    (hhd : (ghostCandidateRows db user color start).head? = some hd) :
    ∀ rb ∈ ghostCandidateRows db user color start, hd.1.depth ≤ rb.1.depth := by
  intro rb hrb
  rw [ghostCandidateRows_eq_flatMap] at hhd hrb
  exact head_key_min (fun x => x.1.depth) (List.range (GHOST_MAX_DEPTH + 1)) _
    ((List.pairwise_lt_range _).imp le_of_lt)
    (fun n x hx => candidate_depth_of_level hx) hd hhd rb hrb

theorem find_ghost_move_eq (e : EpOracle) (db : DB) (user : Nat) (fen color : String)
    (current : PositionRow)
    (hf : db.positions.find? (fun p => p.user_id == user && p.fen_hash == fen_hash e fen)
        = some current) :
    find_ghost_move e db user fen color
      = match (ghostCandidateRows db user color current.id).head? with
        | none => (none, none)
        | some rb => (rb.1.first_move, some rb.2.id) := by
  rw [find_ghost_move, hf]


/-- C1 (amended): the ghost search walks at most GHOST_MAX_DEPTH = 15 plies
(the code's bound; the claimed bound of 5 is refuted by the counterexample):
every returned target blunder sits at a position reachable from the start
position within 15 stored edges, a blunder at exactly depth 15 of a chain is
found, and one at depth 16 is not. -/
theorem ghost_depth_bound_fifteen :
    (∀ (e : EpOracle) (db : DB) (user : Nat) (fen color fm : String) (bid : Nat),
        find_ghost_move e db user fen color = (some fm, some bid) →
        ∃ start,
          db.positions.find? (fun p => p.user_id == user && p.fen_hash == fen_hash e fen)
            = some start ∧
          ∃ b ∈ db.blunders, b.id = bid ∧
            ∃ n ≤ GHOST_MAX_DEPTH, Reaches db.moves start.id b.position_id n) ∧
    find_ghost_move epFalse (chainDb 16) 7 fenStartA whiteStr = (some (("m1")), some 100) ∧
    find_ghost_move epFalse (chainDb 17) 7 fenStartA whiteStr = (none, none) := by
  refine ⟨?_, by decide, by decide⟩
  intro e db user fen color fm bid h
  cases hf : db.positions.find? (fun p => p.user_id == user && p.fen_hash == fen_hash e fen) with
  | none => rw [find_ghost_move, hf] at h; simp at h
  | some current =>
    rw [find_ghost_move_eq e db user fen color current hf] at h
    cases hhd : (ghostCandidateRows db user color current.id).head? with
    | none => rw [hhd] at h; simp at h
    | some rb =>
      rw [hhd] at h
      simp only [Prod.mk.injEq] at h
      have hmem : rb ∈ ghostCandidateRows db user color current.id :=
        List.mem_of_mem_head? (Option.mem_def.mpr hhd)
      rcases mem_ghostCandidateRows hmem with ⟨hcte, hfm, hpos, hbmem, hbpos, hbuser⟩
      rcases mem_cteRows hcte with ⟨n, hn, hlev⟩
      have hreach := (mem_cteLevels hlev).2.2.1
      exact ⟨current, rfl, rb.2, hbmem, Option.some.inj h.2, n, hn, hbpos ▸ hreach⟩

/-- C1 counterexample: on a 7-position chain whose only blunder lies at
depth 6 (position 7, unreachable within 5 plies: levels 0 through 5 of the
traversal never visit it), find_ghost_move still returns that blunder,
refuting the claimed MAX_DEPTH = 5 bound. -/
theorem ghost_returns_depth_six_blunder :
    find_ghost_move epFalse (chainDb 7) 7 fenStartA whiteStr = (some (("m1")), some 100) ∧
    (chainDb 7).blunders = [⟨100, 7, 7, emptyStr, emptyStr, 200, 0, none, none⟩] ∧
    ((List.range 6).flatMap (cteLevels (chainDb 7).moves 1)).all
      (fun r => r.position_id != 7) = true :=
  ⟨by decide, by decide, by decide⟩

/-- C1 witness: the depth-15 chain instantiates the soundness conjunct. -/
theorem ghost_depth_bound_fifteen_witness :
    ∃ start,
      (chainDb 16).positions.find?
          (fun p => p.user_id == 7 && p.fen_hash == fen_hash epFalse fenStartA)
        = some start ∧
      ∃ b ∈ (chainDb 16).blunders, b.id = 100 ∧
        ∃ n ≤ GHOST_MAX_DEPTH, Reaches (chainDb 16).moves start.id b.position_id n :=
  ghost_depth_bound_fifteen.1 epFalse (chainDb 16) 7 fenStartA whiteStr ("m1") 100 (by decide)

/-- C2 (amended): find_ghost_move computes no score; it returns the first
move and blunder id of the first candidate row of the breadth-first CTE
enumeration (LIMIT 1 with no ORDER BY), whose depth is minimal among all
candidate rows. -/
theorem ghost_returns_first_bfs_candidate (e : EpOracle) (db : DB) (user : Nat)
    (fen color fm : String) (bid : Nat)
    (h : find_ghost_move e db user fen color = (some fm, some bid)) :
    ∃ start,
      db.positions.find? (fun p => p.user_id == user && p.fen_hash == fen_hash e fen)
        = some start ∧
      ∃ hd, (ghostCandidateRows db user color start.id).head? = some hd ∧
        hd.1.first_move = some fm ∧ hd.2.id = bid ∧
        ∀ rb ∈ ghostCandidateRows db user color start.id, hd.1.depth ≤ rb.1.depth := by
  cases hf : db.positions.find? (fun p => p.user_id == user && p.fen_hash == fen_hash e fen) with
  | none => rw [find_ghost_move, hf] at h; simp at h
  | some current =>
    rw [find_ghost_move_eq e db user fen color current hf] at h
    cases hhd : (ghostCandidateRows db user color current.id).head? with
    | none => rw [hhd] at h; simp at h
    | some rb =>
      rw [hhd] at h
      simp only [Prod.mk.injEq] at h
      exact ⟨current, rfl, rb, hhd, h.1, Option.some.inj h.2, ghost_head_depth_min hhd⟩

/-- C2 witness: the branching graph instantiates the amended claim. -/
theorem ghost_returns_first_bfs_candidate_witness :
    ∃ start,
      c2Db.positions.find?
          (fun p => p.user_id == 7 && p.fen_hash == fen_hash epFalse fenStartA)
        = some start ∧
      ∃ hd, (ghostCandidateRows c2Db 7 whiteStr start.id).head? = some hd ∧
        hd.1.first_move = some (("a")) ∧ hd.2.id = 11 ∧
        ∀ rb ∈ ghostCandidateRows c2Db 7 whiteStr start.id, hd.1.depth ≤ rb.1.depth :=
  ghost_returns_first_bfs_candidate epFalse c2Db 7 fenStartA whiteStr ("a") 11 (by decide)

/-- C3: whenever the ghost search returns (move, blunder id), the blunder
belongs to the searching user, its position's active_color equals the
player's color, the target differs from the start position, and the
emitting traversal row has a first move and depth at least 1. -/
theorem ghost_color_scoped_and_depth_positive (e : EpOracle) (db : DB) (user : Nat)
    (fen color fm : String) (bid : Nat)
    (h : find_ghost_move e db user fen color = (some fm, some bid)) :
    ∃ start,
      db.positions.find? (fun p => p.user_id == user && p.fen_hash == fen_hash e fen)
        = some start ∧
      ∃ b ∈ db.blunders, b.id = bid ∧ b.user_id = user ∧
        (∃ p ∈ db.positions, p.id = b.position_id ∧ p.active_color = color) ∧
        b.position_id ≠ start.id ∧
        ∃ r ∈ cteRows db.moves start.id, r.position_id = b.position_id ∧
          r.first_move = some fm ∧ 1 ≤ r.depth := by
  cases hf : db.positions.find? (fun p => p.user_id == user && p.fen_hash == fen_hash e fen) with
  | none => rw [find_ghost_move, hf] at h; simp at h
  | some current =>
    rw [find_ghost_move_eq e db user fen color current hf] at h
    cases hhd : (ghostCandidateRows db user color current.id).head? with
    | none => rw [hhd] at h; simp at h
    | some rb =>
      rw [hhd] at h
      simp only [Prod.mk.injEq] at h
      have hmem : rb ∈ ghostCandidateRows db user color current.id :=
        List.mem_of_mem_head? (Option.mem_def.mpr hhd)
      rcases mem_ghostCandidateRows hmem with ⟨hcte, hfm, hpos, hbmem, hbpos, hbuser⟩
      rcases mem_cteRows hcte with ⟨n, hn, hlev⟩
      rcases mem_cteLevels hlev with ⟨hdepth, _, _, hzero, hnz⟩
      have hn0 : n ≠ 0 := by
        intro h0
        rw [hzero h0] at h
        simp at h
      rcases hnz hn0 with ⟨hne, _⟩
      refine ⟨current, rfl, rb.2, hbmem, Option.some.inj h.2, hbuser, ?_, ?_, ?_⟩
      · rcases hpos with ⟨p, hp, hpid, hpcol⟩
        exact ⟨p, hp, hbpos ▸ hpid, hpcol⟩
      · rw [hbpos]
        exact hne
      · refine ⟨rb.1, hcte, hbpos.symm, h.1, ?_⟩
        omega

/-- C3 witness: the branching graph instantiates the color-scoping claim. -/
theorem ghost_color_scoped_witness :
    ∃ start,
      c2Db.positions.find?
          (fun p => p.user_id == 7 && p.fen_hash == fen_hash epFalse fenStartA)
        = some start ∧
      ∃ b ∈ c2Db.blunders, b.id = 11 ∧ b.user_id = 7 ∧
        (∃ p ∈ c2Db.positions, p.id = b.position_id ∧ p.active_color = whiteStr) ∧
        b.position_id ≠ start.id ∧
        ∃ r ∈ cteRows c2Db.moves start.id, r.position_id = b.position_id ∧
          r.first_move = some (("a")) ∧ 1 ≤ r.depth :=
  ghost_color_scoped_and_depth_positive epFalse c2Db 7 fenStartA whiteStr ("a") 11 (by decide)



/-- C2 counterexample: on c2Db the code returns the depth-1 candidate
(move a, blunder 11, spec score 0) even though the spec's scored selection
picks the depth-2 candidate (move b, blunder 12, spec score 500/3): the
greatest-score rule is not what the code implements. -/
theorem ghost_ignores_spec_score :
    find_ghost_move epFalse c2Db 7 fenStartA whiteStr = (some (("a")), some 11) ∧
    (ghostCandidateRows c2Db 7 whiteStr 1).head? = some ((c2row1, c2b11)) ∧
    specBestCandidate 7200 (ghostCandidateRows c2Db 7 whiteStr 1) = some ((c2row2, c2b12)) ∧
    c2row2.first_move = some (("b")) ∧ c2b12.id = 12 ∧
    specGhostScore 7200 ((c2row1, c2b11)) < specGhostScore 7200 ((c2row2, c2b12)) := by
  have hcands : ghostCandidateRows c2Db 7 whiteStr 1 = [(c2row1, c2b11), (c2row2, c2b12)] := by
    decide
  have hs1 : specGhostScore 7200 ((c2row1, c2b11)) = 0 := by
    norm_num [specGhostScore, calculate_priority, expected_interval_hours, Option.or,
      BASE_INTERVAL_HOURS, BACKOFF_FACTOR, MAX_INTERVAL_HOURS, c2row1, c2b11]
  have hs2 : specGhostScore 7200 ((c2row2, c2b12)) = 500 / 3 := by
    norm_num [specGhostScore, calculate_priority, expected_interval_hours, Option.or,
      BASE_INTERVAL_HOURS, BACKOFF_FACTOR, MAX_INTERVAL_HOURS, c2row2, c2b12]
  have hbetter : specBetter 7200 ((c2row2, c2b12)) ((c2row1, c2b11)) = true := by
    rw [specBetter]
    apply decide_eq_true
    left
    rw [hs1, hs2]
    norm_num
  refine ⟨by decide, ?_, ?_, by decide, by decide, ?_⟩
  · rw [hcands]; rfl
  · rw [hcands]
    simp [specBestCandidate, List.foldl_cons, List.foldl_nil, hbetter]
  · rw [hs1, hs2]; norm_num


theorem calibInvariant_step (ln : Rat → Rat) (target : Rat) (evals : List CandidateEval)
    (processed : List MaiaCandidate) (st : Option Rat × MaiaCandidate) (c : MaiaCandidate)
    (h : calibInvariant ln target evals processed st) :
    calibInvariant ln target evals (processed ++ [c]) (calibStep ln target evals st c) := by
  rcases hev : evalByUci evals c.uci with _ | ev
  · have hstep : calibStep ln target evals st c = st := by
      rw [calibStep, hev]
    rw [hstep]
    rcases h with ⟨h1, h2⟩ | ⟨s, hs, cc, hcc, ev0, hev0, hsc, hst2, hmin⟩
    · left
      refine ⟨h1, ?_⟩
      intro x hx
      rcases List.mem_append.mp hx with hx | hx
      · exact h2 x hx
      · rcases List.mem_singleton.mp hx with rfl
        exact hev
    · right
      refine ⟨s, hs, cc, List.mem_append_left _ hcc, ev0, hev0, hsc, hst2, ?_⟩
      intro c' hc' ev' hev''
      rcases List.mem_append.mp hc' with hc' | hc'
      · exact hmin c' hc' ev' hev''
      · rcases List.mem_singleton.mp hc' with rfl
        rw [hev] at hev''
        cases hev''
  · rcases h with ⟨h1, h2⟩ | ⟨s, hs, cc, hcc, ev0, hev0, hsc, hst2, hmin⟩
    · have hstep : calibStep ln target evals st c
          = (some (calibScore ln target c ev), c) := by
        simp only [calibStep, hev, h1]
      rw [hstep]
      right
      refine ⟨_, rfl, c, List.mem_append_right _ (List.mem_singleton_self c), ev, hev,
        rfl, rfl, ?_⟩
      intro c' hc' ev' hev''
      rcases List.mem_append.mp hc' with hc' | hc'
      · rw [h2 c' hc'] at hev''
        cases hev''
      · rcases List.mem_singleton.mp hc' with rfl
        cases Option.some.inj (hev.symm.trans hev'')
        exact le_refl _
    · by_cases hlt : calibScore ln target c ev < s
      · have hstep : calibStep ln target evals st c
            = (some (calibScore ln target c ev), c) := by
          simp only [calibStep, hev, hs, if_pos hlt]
        rw [hstep]
        right
        refine ⟨_, rfl, c, List.mem_append_right _ (List.mem_singleton_self c), ev, hev,
          rfl, rfl, ?_⟩
        intro c' hc' ev' hev''
        rcases List.mem_append.mp hc' with hc' | hc'
        · exact le_of_lt (lt_of_lt_of_le hlt (hsc ▸ hmin c' hc' ev' hev''))
        · rcases List.mem_singleton.mp hc' with rfl
          cases Option.some.inj (hev.symm.trans hev'')
          exact le_refl _
      · have hstep : calibStep ln target evals st c = st := by
          simp only [calibStep, hev, hs, if_neg hlt]
        rw [hstep]
        right
        refine ⟨s, hs, cc, List.mem_append_left _ hcc, ev0, hev0, hsc, hst2, ?_⟩
        intro c' hc' ev' hev''
        rcases List.mem_append.mp hc' with hc' | hc'
        · exact hmin c' hc' ev' hev''
        · rcases List.mem_singleton.mp hc' with rfl
          cases Option.some.inj (hev.symm.trans hev'')
          exact le_of_not_lt hlt

theorem calibInvariant_foldl (ln : Rat → Rat) (target : Rat) (evals : List CandidateEval) :
    ∀ (cs processed : List MaiaCandidate) (st : Option Rat × MaiaCandidate),
      calibInvariant ln target evals processed st →
      calibInvariant ln target evals (processed ++ cs)
        (cs.foldl (calibStep ln target evals) st) := by
  intro cs
  induction cs with
  | nil => intro processed st h; simpa using h
  | cons c cs ih =>
    intro processed st h
    rw [List.foldl_cons]
    have := ih (processed ++ [c]) (calibStep ln target evals st c)
      (calibInvariant_step ln target evals processed st c h)
    simpa [List.append_assoc] using this

theorem calib_min (ln : Rat → Rat) (cands : List MaiaCandidate)
    (evals : List CandidateEval) (target : Rat)
    (hex : ∃ c0 ∈ cands, evalByUci evals c0.uci ≠ none) :
    ∃ c ∈ cands, ∃ ev, evalByUci evals c.uci = some ev ∧
      _calibrated_selection ln cands evals target = ⟨c.uci, c.san, calibratedStr⟩ ∧
      ∀ c' ∈ cands, ∀ ev', evalByUci evals c'.uci = some ev' →
        calibScore ln target c ev ≤ calibScore ln target c' ev' := by
  have hinv := calibInvariant_foldl ln target evals cands []
    (none, cands.headD ⟨emptyStr, emptyStr, 0⟩) (Or.inl ⟨rfl, by simp⟩)
  rcases hinv with ⟨h1, h2⟩ | ⟨s, hs, c, hc, ev, hev, hsc, hst2, hmin⟩
  · rcases hex with ⟨c0, hc0, hne⟩
    exact absurd (h2 c0 (by simpa using hc0)) hne
  · refine ⟨c, by simpa using hc, ev, hev, ?_, ?_⟩
    · simp only [_calibrated_selection]
      rw [hst2]
    · intro c' hc' ev' hev'
      exact hsc ▸ hmin c' (by simpa using hc') ev' hev'


theorem calibScore_strict_gt {ln : Rat → Rat} (hmono : ∀ x y : Rat, x ≤ y → ln x ≤ ln y)
    (c0 ci : MaiaCandidate) (ev0 evi : CandidateEval)
    (h0 : ev0.cp_loss_vs_best = 0) (hi : evi.cp_loss_vs_best ≠ 0)
    (hp : ci.probability ≤ c0.probability) :
    calibScore ln 0 c0 ev0 < calibScore ln 0 ci evi := by
  rw [calibScore, calibScore, h0, HUMAN_PENALTY_WEIGHT]
  have h1 : ln (max ci.probability (1 / 1000)) ≤ ln (max c0.probability (1 / 1000)) :=
    hmono _ _ (max_le_max hp (le_refl _))
  have h2 : (0 : Rat) < |(evi.cp_loss_vs_best : Rat) - 0| := by
    rw [sub_zero, abs_pos]
    exact_mod_cast hi
  have h3 : |((0 : Int) : Rat) - 0| = 0 := by norm_num
  rw [h3]
  linarith

theorem s6_refute {ln : Rat → Rat} (hmono : ∀ x y : Rat, x ≤ y → ln x ≤ ln y)
    (ci : MaiaCandidate) (ev evL : CandidateEval)
    (heq : evL = ev)
    (hL : evL.cp_loss_vs_best ≠ 0)
    (hp : ci.probability ≤ (⟨("g1f3"), ("Nf3"), 35 / 100⟩ : MaiaCandidate).probability)
    (hub : calibScore ln 0 ci ev
        ≤ calibScore ln 0 ⟨("g1f3"), ("Nf3"), 35 / 100⟩ ⟨("g1f3"), 50, 0⟩) : False := by
  rw [← heq] at hub
  exact absurd hub (not_le.mpr (calibScore_strict_gt hmono _ _ _ _ rfl hL hp))

/-- C8: the calibrated selection returns an evaluated candidate whose score
|loss_vs_best - target| + 15 * (-ln (max p 0.001)) is minimal among all
evaluated candidates (for any log function); and on the S6 stub candidate
set with sampled target loss 0 it returns Nf3, for every monotone log. -/
theorem calibrated_selection_minimizes :
    (∀ (ln : Rat → Rat) (cands : List MaiaCandidate) (evals : List CandidateEval)
       (target : Rat),
       (∃ c0 ∈ cands, evalByUci evals c0.uci ≠ none) →
       ∃ c ∈ cands, ∃ ev, evalByUci evals c.uci = some ev ∧
         _calibrated_selection ln cands evals target = ⟨c.uci, c.san, calibratedStr⟩ ∧
         ∀ c' ∈ cands, ∀ ev', evalByUci evals c'.uci = some ev' →
           calibScore ln target c ev ≤ calibScore ln target c' ev') ∧
    (∀ ln : Rat → Rat, (∀ x y : Rat, x ≤ y → ln x ≤ ln y) →
       _calibrated_selection ln mockCandidates mockEvals 0
         = ⟨("g1f3"), ("Nf3"), calibratedStr⟩) := by
  constructor
  · intro ln cands evals target hex
    exact calib_min ln cands evals target hex
  · intro ln hmono
    have hex : ∃ c0 ∈ mockCandidates, evalByUci mockEvals c0.uci ≠ none := by
      refine ⟨⟨("g1f3"), ("Nf3"), 35 / 100⟩, ?_, ?_⟩
      · simp [mockCandidates]
      · decide
    obtain ⟨c, hc, ev, hev, heq, hmin⟩ := calib_min ln mockCandidates mockEvals 0 hex
    have hub := hmin ⟨("g1f3"), ("Nf3"), 35 / 100⟩ (by simp [mockCandidates])
      ⟨("g1f3"), 50, 0⟩ (by decide)
    have hcases : c = (⟨("g1f3"), ("Nf3"), 35 / 100⟩ : MaiaCandidate) := by
      simp only [mockCandidates, List.mem_cons, List.not_mem_nil, or_false] at hc
      rcases hc with rfl | rfl | rfl | rfl | rfl | rfl | rfl | rfl
      · rfl
      · exact absurd hub (fun hub => s6_refute hmono _ ev (⟨("b1c3"), 43, 7⟩)
          (Option.some.inj ((show evalByUci mockEvals ("b1c3")
            = some (⟨("b1c3"), 43, 7⟩ : CandidateEval) from by decide).symm.trans hev))
          (by decide) (by norm_num) hub)
      · exact absurd hub (fun hub => s6_refute hmono _ ev (⟨("d2d4"), 26, 24⟩)
          (Option.some.inj ((show evalByUci mockEvals ("d2d4")
            = some (⟨("d2d4"), 26, 24⟩ : CandidateEval) from by decide).symm.trans hev))
          (by decide) (by norm_num) hub)
      · exact absurd hub (fun hub => s6_refute hmono _ ev (⟨("f1c4"), 39, 11⟩)
          (Option.some.inj ((show evalByUci mockEvals ("f1c4")
            = some (⟨("f1c4"), 39, 11⟩ : CandidateEval) from by decide).symm.trans hev))
          (by decide) (by norm_num) hub)
      · exact absurd hub (fun hub => s6_refute hmono _ ev (⟨("f2f4"), -2, 52⟩)
          (Option.some.inj ((show evalByUci mockEvals ("f2f4")
            = some (⟨("f2f4"), -2, 52⟩ : CandidateEval) from by decide).symm.trans hev))
          (by decide) (by norm_num) hub)
      · exact absurd hub (fun hub => s6_refute hmono _ ev (⟨("d1h5"), -51, 101⟩)
          (Option.some.inj ((show evalByUci mockEvals ("d1h5")
            = some (⟨("d1h5"), -51, 101⟩ : CandidateEval) from by decide).symm.trans hev))
          (by decide) (by norm_num) hub)
      · exact absurd hub (fun hub => s6_refute hmono _ ev (⟨("g2g3"), -6, 56⟩)
          (Option.some.inj ((show evalByUci mockEvals ("g2g3")
            = some (⟨("g2g3"), -6, 56⟩ : CandidateEval) from by decide).symm.trans hev))
          (by decide) (by norm_num) hub)
      · exact absurd hub (fun hub => s6_refute hmono _ ev (⟨("a2a3"), -18, 68⟩)
          (Option.some.inj ((show evalByUci mockEvals ("a2a3")
            = some (⟨("a2a3"), -18, 68⟩ : CandidateEval) from by decide).symm.trans hev))
          (by decide) (by norm_num) hub)
    rw [hcases] at heq
    exact heq

/-- C8 witness: the S6 conjunct applied to the constant-zero log, which is
monotone. -/
theorem calibrated_selection_minimizes_witness :
    _calibrated_selection (fun _ => 0) mockCandidates mockEvals 0
      = ⟨("g1f3"), ("Nf3"), calibratedStr⟩ :=
  calibrated_selection_minimizes.2 (fun _ => 0) (fun _ _ _ => le_refl 0)


end GhostReplay
